import Mathlib

/-!
# Verification of the canister-car time simulator

A shallow embedding of the core of the `race_car_time_sim_cda` repository
(files `constants.py`, `drag_model.py`, `mass_model.py`, `canister_force.py`,
`integrator.py`, `solver.py`) together with proofs about the embedded code.

Conventions of the embedding:
* Python floats are modelled as exact rationals (`ℚ`); the transcendental
  thrust model (`canister_force.py`) is modelled over the reals (`ℝ`).
* NumPy array operations become `List` operations; `np.arange`, `np.interp`,
  `np.linspace`, `np.argmax` and `scipy.integrate.cumulative_trapezoid`
  are embedded as the list functions below, following their documented
  semantics in exact arithmetic.
* Code that raises a Python exception is modelled with `Except String`;
  the string records the exception.  In exact rational arithmetic no
  NaN/infinity can arise (division is guarded by a positivity test in the
  source), so the `np.nan_to_num` sanitization branches of
  `integrator.py` are no-ops in the model.
* `print` calls are output-only and are dropped.
-/

/-! ## constants.py -/

def AIR_DENSITY : ℚ := 1.20473

def X_RANGE_1_START : ℚ := 0.0
def X_RANGE_1_END : ℚ := 0.1306115
def X_RANGE_2_START : ℚ := 0.1306115
def X_RANGE_2_END : ℚ := 0.849993
def X_RANGE_3_START : ℚ := 0.849993
def X_RANGE_3_END : ℚ := 1.280275

def MASS_BASE : ℚ := 0.0214
def MASS_BASE_M : ℚ := 0.048
def MASS_COEFF_NUM : ℚ := 0.008 * (40000 : ℚ)^2
def MASS_COEFF_DEN : ℚ := (51211 : ℚ)^2
def MASS_CENTER : ℚ := 1.280275
def MASS_MAX_X : ℚ := 1.280275

def TARGET_DISPLACEMENT : ℚ := 20.0

def DEFAULT_CDA : ℚ := 0.5
def MIN_CDA : ℚ := 0.0001
def MAX_CDA : ℚ := 1.0

/-! ## NumPy / SciPy primitives used by the engine -/

/-- `np.arange(start, stop, step)` in exact arithmetic: the values
`start + k*step` for `0 ≤ k < ⌈(stop - start)/step⌉` (positive `step`). -/
def np_arange (start stop step : ℚ) : List ℚ :=
  (List.range ⌈(stop - start) / step⌉₊).map (fun (k : ℕ) => start + (k : ℚ) * step)

/-- Tail worker for `cumulative_trapezoid`: `acc` is the running integral,
`y0`/`t0` the previous sample. -/
def cumtrapzGo (acc y0 t0 : ℚ) : List ℚ → List ℚ → List ℚ
  | y1 :: ys, t1 :: ts =>
      let acc' := acc + (y0 + y1) / 2 * (t1 - t0)
      acc' :: cumtrapzGo acc' y1 t1 ys ts
  | _, _ => []

/-- `scipy.integrate.cumulative_trapezoid(y, t, initial=0)`: running composite
trapezoid sums, with the value at index 0 fixed to `0`. -/
def cumulative_trapezoid (ys ts : List ℚ) : List ℚ :=
  match ys, ts with
  | y0 :: ys', t0 :: ts' => 0 :: cumtrapzGo 0 y0 t0 ys' ts'
  | _, _ => []

/-- Tail worker for `np.argmax`: keeps the first index attaining the
maximum (only a strictly larger value replaces the current best). -/
def argmaxGo (best : ℚ) (bestIdx i : ℕ) : List ℚ → ℕ
  | [] => bestIdx
  | y :: ys => if best < y then argmaxGo y i (i + 1) ys else argmaxGo best bestIdx (i + 1) ys

/-- `np.argmax` on a non-empty list (0 on the empty list, which NumPy rejects). -/
def np_argmax : List ℚ → ℕ
  | [] => 0
  | y :: ys => argmaxGo y 0 1 ys

/-- Tail worker for `np.interp`: `x0`/`f0` is the previous breakpoint. -/
def interpGo (x x0 f0 : ℚ) : List ℚ → List ℚ → ℚ
  | x1 :: xs, f1 :: fs =>
      if x ≤ x1 then f0 + (f1 - f0) * (x - x0) / (x1 - x0)
      else interpGo x x1 f1 xs fs
  | _, _ => f0

/-- `np.interp(x, xp, fp)` for increasing breakpoints `xp`: piecewise-linear
interpolation, clamped to `fp.head`/`fp.getLast` outside the range. -/
def np_interp (x : ℚ) (xp fp : List ℚ) : ℚ :=
  match xp, fp with
  | x0 :: xs, f0 :: fs => if x ≤ x0 then f0 else interpGo x x0 f0 xs fs
  | _, _ => 0

/-- `np.linspace(a, b, n)`: `n` evenly spaced samples from `a` to `b`
inclusive (for `n ≥ 2`; `[a]` for `n = 1`, `[]` for `n = 0`). -/
def np_linspace (a b : ℚ) (n : ℕ) : List ℚ :=
  (List.range n).map
    (fun (k : ℕ) => if n ≤ 1 then a else a + (k : ℚ) * (b - a) / ((n : ℚ) - 1))

/-! ## drag_model.py -/

/-- `drag_force(velocity, cda)`: quadratic drag with the negative-velocity
clamp of the source (`velocity = max(0, velocity)`). -/
def drag_force (velocity cda : ℚ) : ℚ :=
  0.5 * AIR_DENSITY * (max 0 velocity)^2 * cda

/-- Input to `validate_cda`: Python `None`, a non-numeric object (carrying
its textual form), or a number. -/
inductive CdaInput
  | nothing
  | nonNumeric (text : String)
  | num (q : ℚ)
deriving DecidableEq, Repr

/-- `validate_cda(cda)`: the (is_valid, error_message) pair of the source.
The `${MIN_CDA}` / `${MAX_CDA}` fragments are literal text in the source
(the messages are not f-strings). -/
def validate_cda : CdaInput → Bool × String
  | CdaInput.nothing => (false, "CdA value cannot be None")
  | CdaInput.nonNumeric _ => (false, "CdA must be a number")
  | CdaInput.num q =>
      if q ≤ 0 then (false, "CdA must be positive")
      else if q < MIN_CDA then (false, "CdA value too small (minimum $\x7bMIN_CDA\x7d)")
      else if MAX_CDA < q then (false, "CdA value too large (maximum $\x7bMAX_CDA\x7d)")
      else (true, "")

/-! ## mass_model.py -/

/-- `mass(x)` (scalar path of the source): the burn-phase parabola on
`[0, MASS_MAX_X]`, the constant `MASS_BASE` outside it. -/
def mass (x : ℚ) : ℚ :=
  if x < 0 then MASS_BASE
  else if x ≤ MASS_MAX_X then
    MASS_BASE + MASS_COEFF_NUM / MASS_COEFF_DEN * (x - MASS_CENTER)^2
  else MASS_BASE

/-- `mass_derivative(x)` (scalar path of the source). -/
def mass_derivative (x : ℚ) : ℚ :=
  if x < 0 ∨ MASS_MAX_X < x then 0
  else 2 * MASS_COEFF_NUM / MASS_COEFF_DEN * (x - MASS_CENTER)

/-! ## integrator.py -/

/-- Result message of a run.  The source formats these as f-strings; the
model keeps the numeric payload of each message. -/
inductive Msg
  | reached (seconds : ℚ)
  | notReached (maxDisplacement : ℚ)
  | errorText (text : String)
deriving DecidableEq, Repr

/-- `IntegrationResult` container (defaults mirror the Python constructor). -/
structure IntegrationResult where
  success : Bool
  message : Msg
  t : Option (List ℚ) := Option.none
  v : Option (List ℚ) := Option.none
  s : Option (List ℚ) := Option.none
  time_to_20m : Option ℚ := Option.none
  top_speed : Option ℚ := Option.none
  top_speed_time : Option ℚ := Option.none
deriving DecidableEq, Repr

/-- The time grid `t = np.arange(0, max_time + dt, dt)` of `integrate_motion`. -/
def t_grid (max_time dt : ℚ) : List ℚ :=
  np_arange 0 (max_time + dt) dt

/-- The masked division `a = np.zeros(n); a[m > 0] = F[m > 0] / m[m > 0]`
used for both acceleration series of `integrate_motion`. -/
def mask_divide (F m : List ℚ) : List ℚ :=
  List.zipWith (fun Fi mi => if 0 < mi then Fi / mi else 0) F m

/-- Step 1: `F_canister = canister_force_func(t)`. -/
def F_canister_series (fc : ℚ → ℚ) (mt dt : ℚ) : List ℚ :=
  (t_grid mt dt).map fc

/-- Step 2: `m = mass_func(t)`. -/
def m_series (mf : ℚ → ℚ) (mt dt : ℚ) : List ℚ :=
  (t_grid mt dt).map mf

/-- Step 3: canister-only acceleration. -/
def a_canister_series (fc mf : ℚ → ℚ) (mt dt : ℚ) : List ℚ :=
  mask_divide (F_canister_series fc mt dt) (m_series mf mt dt)

/-- Step 4: no-drag velocity estimate. -/
def v_nodrag_series (fc mf : ℚ → ℚ) (mt dt : ℚ) : List ℚ :=
  cumulative_trapezoid (a_canister_series fc mf mt dt) (t_grid mt dt)

/-- Step 5: drag force from the no-drag velocity. -/
def F_drag_series (cda : ℚ) (fc mf : ℚ → ℚ) (df : ℚ → ℚ → ℚ) (mt dt : ℚ) : List ℚ :=
  (v_nodrag_series fc mf mt dt).map (fun vel => df vel cda)

/-- Step 6: resultant force `F_canister - F_drag`. -/
def F_resultant_series (cda : ℚ) (fc mf : ℚ → ℚ) (df : ℚ → ℚ → ℚ) (mt dt : ℚ) : List ℚ :=
  List.zipWith (fun a b => a - b) (F_canister_series fc mt dt) (F_drag_series cda fc mf df mt dt)

/-- Step 7: actual acceleration. -/
def a_actual_series (cda : ℚ) (fc mf : ℚ → ℚ) (df : ℚ → ℚ → ℚ) (mt dt : ℚ) : List ℚ :=
  mask_divide (F_resultant_series cda fc mf df mt dt) (m_series mf mt dt)

/-- Step 8: actual velocity, clamped non-negative
(`v_actual = np.maximum(v_actual, 0)`). -/
def v_actual_series (cda : ℚ) (fc mf : ℚ → ℚ) (df : ℚ → ℚ → ℚ) (mt dt : ℚ) : List ℚ :=
  (cumulative_trapezoid (a_actual_series cda fc mf df mt dt) (t_grid mt dt)).map
    (fun vel => max vel 0)

/-- Step 9: displacement. -/
def s_series (cda : ℚ) (fc mf : ℚ → ℚ) (df : ℚ → ℚ → ℚ) (mt dt : ℚ) : List ℚ :=
  cumulative_trapezoid (v_actual_series cda fc mf df mt dt) (t_grid mt dt)

/-- Step 10: crossing-time search of `integrate_motion` (`np.where` on
`s >= TARGET_DISPLACEMENT`, then the interpolation branch). -/
def find_crossing_time (t s : List ℚ) : Option ℚ :=
  match s.findIdx? (fun x => decide (TARGET_DISPLACEMENT ≤ x)) with
  | Option.none => Option.none
  | Option.some i =>
      if i = 0 then Option.some (t.getD 0 0)
      else
        let t1 := t.getD (i - 1) 0
        let t2 := t.getD i 0
        let s1 := s.getD (i - 1) 0
        let s2 := s.getD i 0
        if s1 < s2 then
          Option.some (t1 + (TARGET_DISPLACEMENT - s1) * (t2 - t1) / (s2 - s1))
        else Option.some t1

/-- `integrate_motion(cda, canister_force_func, mass_func, drag_force_func,
max_time, accuracy)`.  The NaN/Inf sanitization branches are no-ops in exact
arithmetic (division only happens where `m > 0`); the debug prints are
output-only and dropped. -/
def integrate_motion (cda : ℚ) (canister_force_func mass_func : ℚ → ℚ)
    (drag_force_func : ℚ → ℚ → ℚ) (max_time accuracy : ℚ) : IntegrationResult :=
  let t := t_grid max_time accuracy
  let v_actual := v_actual_series cda canister_force_func mass_func drag_force_func max_time accuracy
  let s := s_series cda canister_force_func mass_func drag_force_func max_time accuracy
  let time_to_20m := find_crossing_time t s
  let message :=
    match time_to_20m with
    | Option.some tc => Msg.reached tc
    | Option.none => Msg.notReached (s.getLastD 0)
  let top : Option ℚ × Option ℚ :=
    match v_actual with
    | [] => (Option.none, Option.none)
    | _ :: _ =>
        (Option.some (v_actual.getD (np_argmax v_actual) 0),
         Option.some (t.getD (np_argmax v_actual) 0))
  { success := true
    message := message
    t := Option.some t
    v := Option.some v_actual
    s := Option.some s
    time_to_20m := time_to_20m
    top_speed := top.1
    top_speed_time := top.2 }

/-! ## solver.py -/

/-- The force dictionary built by `compute_forces`. -/
structure Forces where
  canister : List ℚ
  drag : List ℚ
  net : List ℚ
  acceleration : List ℚ
  mass : List ℚ
deriving DecidableEq, Repr

/-- `compute_forces(t, v, cda, mass_value)`: its first statement is
`mass(t, mass_value)`, but `mass` (mass_model.py) accepts a single
argument, so every call raises a TypeError before computing anything. -/
def compute_forces (_t _v : List ℚ) (_cda : CdaInput) (_mass_value : ℚ) :
    Except String Forces :=
  Except.error "TypeError: mass takes 1 positional argument but 2 were given"

/-- `SolverResult` container, as filled by its constructor. -/
structure SolverResult where
  success : Bool
  message : Msg
  t : Option (List ℚ)
  x : Option (List ℚ)
  v : Option (List ℚ)
  s : Option (List ℚ)
  time_to_20m : Option ℚ
  top_speed : Option ℚ
  top_speed_time : Option ℚ
  cda : CdaInput
  mass_value : ℚ
  canister_force : Option (List ℚ)
  drag_force : Option (List ℚ)
  net_force : Option (List ℚ)
  acceleration : Option (List ℚ)
  mass_values : Option (List ℚ)
deriving DecidableEq, Repr

/-- The `SolverResult` constructor (`__init__`). -/
def SolverResult.ofIntegration (ir : IntegrationResult) (cda : CdaInput)
    (forces : Option Forces) (mass_value : ℚ) : SolverResult :=
  { success := ir.success
    message := ir.message
    t := ir.t
    x := ir.t
    v := ir.v
    s := ir.s
    time_to_20m := ir.time_to_20m
    top_speed := ir.top_speed
    top_speed_time := ir.top_speed_time
    cda := cda
    mass_value := mass_value
    canister_force := forces.map Forces.canister
    drag_force := forces.map Forces.drag
    net_force := forces.map Forces.net
    acceleration := forces.map Forces.acceleration
    mass_values := forces.map Forces.mass }

/-- The call `integrate_motion(..., mass_value=mass_value)` at
solver.py:126-134.  `integrate_motion` (integrator.py:40) has no
`mass_value` parameter, so the call raises a TypeError for every argument
tuple, before the integrator body runs. -/
def integrate_motion_call_in_solver (_cda : CdaInput) (_max_time _accuracy _mass_value : ℚ) :
    Except String IntegrationResult :=
  Except.error "TypeError: integrate_motion got an unexpected keyword argument mass_value"

/-- `solve_canister_car`, parameterized over the behavior of its call into
the integration engine (used to state that invalid inputs never reach the
engine).  After a successful integration the source reads
`integration_result.mass_values`, an attribute `IntegrationResult` does not
define, which would raise an AttributeError. -/
def solve_canister_car_with
    (integrate_call : CdaInput → ℚ → ℚ → ℚ → Except String IntegrationResult)
    (cda : CdaInput) (max_time accuracy mass_value : ℚ) : Except String SolverResult :=
  match validate_cda cda with
  | (false, error_msg) =>
      Except.ok (SolverResult.ofIntegration
        { success := false, message := Msg.errorText error_msg } cda Option.none mass_value)
  | (true, _) =>
      match integrate_call cda max_time accuracy mass_value with
      | Except.error e => Except.error e
      | Except.ok ir =>
          if ir.success = false then
            Except.ok (SolverResult.ofIntegration ir cda Option.none mass_value)
          else
            Except.error "AttributeError: IntegrationResult object has no attribute mass_values"

/-- `solve_canister_car(cda, max_time, accuracy, mass_value)`. -/
def solve_canister_car (cda : CdaInput) (max_time accuracy mass_value : ℚ) :
    Except String SolverResult :=
  solve_canister_car_with integrate_motion_call_in_solver cda max_time accuracy mass_value

/-- The dictionary returned by `get_time_history`. -/
structure TimeHistory where
  t : List ℚ
  x : List ℚ
  v : List ℚ
  s : List ℚ
  canister_force : List ℚ
  drag_force : List ℚ
  net_force : List ℚ
  acceleration : List ℚ
  mass : List ℚ
deriving DecidableEq, Repr

/-- `get_time_history(solver_result, num_points)`.  Python exceptions from
degenerate inputs (empty time series, `None` series fed to `np.interp`,
and the fallback path through `compute_forces`) are modelled as
`Except.error`. -/
def get_time_history (solver_result : SolverResult) (num_points : ℕ) :
    Except String (Option TimeHistory) :=
  match solver_result.success, solver_result.t with
  | false, _ => Except.ok Option.none
  | true, Option.none => Except.ok Option.none
  | true, Option.some ts =>
    match ts with
    | [] => Except.error "IndexError: index 0 is out of bounds for axis 0 with size 0"
    | t0 :: _ =>
      match solver_result.v, solver_result.s with
      | Option.some vs, Option.some ss =>
        let t_interp := np_linspace t0 (ts.getLastD 0) num_points
        let v_interp := t_interp.map (fun xq => np_interp xq ts vs)
        let s_interp := t_interp.map (fun xq => np_interp xq ts ss)
        match solver_result.mass_values, solver_result.canister_force with
        | Option.some ms, Option.some cs =>
          match solver_result.drag_force, solver_result.net_force,
                solver_result.acceleration with
          | Option.some drs, Option.some ns, Option.some accs =>
            Except.ok (Option.some
              { t := t_interp
                x := t_interp
                v := v_interp
                s := s_interp
                canister_force := t_interp.map (fun xq => np_interp xq ts cs)
                drag_force := t_interp.map (fun xq => np_interp xq ts drs)
                net_force := t_interp.map (fun xq => np_interp xq ts ns)
                acceleration := t_interp.map (fun xq => np_interp xq ts accs)
                mass := t_interp.map (fun xq => np_interp xq ts ms) })
          | _, _, _ => Except.error "TypeError: np.interp received a NoneType series"
        | _, _ =>
          match compute_forces t_interp v_interp solver_result.cda solver_result.mass_value with
          | Except.error e => Except.error e
          | Except.ok forces_interp =>
            Except.ok (Option.some
              { t := t_interp
                x := t_interp
                v := v_interp
                s := s_interp
                canister_force := forces_interp.canister
                drag_force := forces_interp.drag
                net_force := forces_interp.net
                acceleration := forces_interp.acceleration
                mass := forces_interp.mass })
      | _, _ => Except.error "TypeError: np.interp received a NoneType series"

/-- `get_time_history` together with the state of its argument after the
call: the source never assigns to `solver_result` or any of its
attributes, so the argument object is returned unchanged. -/
def get_time_history_full (solver_result : SolverResult) (num_points : ℕ) :
    SolverResult × Except String (Option TimeHistory) :=
  (solver_result, get_time_history solver_result num_points)

/-! ## canister_force.py

The thrust model uses `cos`, `sin`, `exp`, `sqrt` and `π`, so it is
embedded over `ℝ` (hence the `noncomputable section`). -/

noncomputable section

def F1_SCALE : ℝ := 1 / 250
def F1_EXP_COEFF : ℝ := -100
def F1_EXP_OFFSET : ℝ := 63.0896
def F1_OFFSET : ℝ := 1
def F2_SCALE : ℝ := 4.175 / 8
def F2_FREQ_COEFF : ℝ := -Real.pi / 1.035
def F2_PHASE : ℝ := 172 / 207 * Real.pi
def F2_EXP_COEFF : ℝ := -Real.pi / 1.035
def F2_EXP_PHASE : ℝ := 172 / 207 * Real.pi
def F2_OFFSET : ℝ := 0.5
def F3_SLOPE : ℝ := -1.2
def F3_INTERCEPT : ℝ := 1.53633

/-- `f1(x)`, with the source's `np.maximum(arg, 0)` guard under the root. -/
def f1 (x : ℝ) : ℝ :=
  F1_SCALE * Real.cos (Real.sqrt (max (F1_EXP_COEFF * x + F1_EXP_OFFSET) 0)) *
    Real.exp (Real.sqrt (max (F1_EXP_COEFF * x + F1_EXP_OFFSET) 0)) + F1_OFFSET

/-- `f2(x)`. -/
def f2 (x : ℝ) : ℝ :=
  F2_SCALE * Real.sin (F2_FREQ_COEFF * x + F2_PHASE) *
    Real.exp (F2_EXP_COEFF * x + F2_EXP_PHASE) + F2_OFFSET

/-- `f3(x)`. -/
def f3 (x : ℝ) : ℝ :=
  F3_SLOPE * x + F3_INTERCEPT

/-- `canister_force(x)`, scalar path (the `1.280275` literal is written as
such in the source, not via `X_RANGE_3_END`). -/
def canister_force (x : ℝ) : ℝ :=
  if x < 0 then 0
  else if x < ((X_RANGE_1_END : ℚ) : ℝ) then f1 x
  else if x < ((X_RANGE_2_END : ℚ) : ℝ) then f2 x
  else if x ≤ 1.280275 then f3 x
  else 0

/-- `canister_force(x)`, array path: `result = np.zeros_like(x)` followed by
the three disjoint mask assignments, elementwise. -/
def canister_force_arr (xs : List ℝ) : List ℝ :=
  xs.map (fun x =>
    if 0 ≤ x ∧ x < ((X_RANGE_1_END : ℚ) : ℝ) then f1 x
    else if ((X_RANGE_1_END : ℚ) : ℝ) ≤ x ∧ x < ((X_RANGE_2_END : ℚ) : ℝ) then f2 x
    else if ((X_RANGE_2_END : ℚ) : ℝ) ≤ x ∧ x ≤ 1.280275 then f3 x
    else 0)

end

/-- A small fully-populated successful `SolverResult` (two grid points),
used to exercise `get_time_history` on concrete data. -/
def example_solver_result : SolverResult :=
  { success := true
    message := Msg.reached 0
    t := Option.some [0, 1]
    x := Option.some [0, 1]
    v := Option.some [5, 7]
    s := Option.some [0, 2]
    time_to_20m := Option.some (1 / 2)
    top_speed := Option.some 7
    top_speed_time := Option.some 1
    cda := CdaInput.num (1 / 2)
    mass_value := MASS_BASE_M
    canister_force := Option.some [1, 2]
    drag_force := Option.some [3, 4]
    net_force := Option.some [5, 6]
    acceleration := Option.some [7, 8]
    mass_values := Option.some [9, 10] }

/-! ## Helper lemmas about the time grid -/

theorem t_grid_eq (mt dt : ℚ) :
    t_grid mt dt = (List.range ⌈(mt + dt) / dt⌉₊).map (fun (k : ℕ) => (k : ℚ) * dt) := by
  simp only [t_grid, np_arange, sub_zero, zero_add]

theorem t_grid_length (mt dt : ℚ) : (t_grid mt dt).length = ⌈(mt + dt) / dt⌉₊ := by
  rw [t_grid_eq, List.length_map, List.length_range]

theorem t_grid_get (mt dt : ℚ) (i : ℕ) (h : i < (t_grid mt dt).length) :
    (t_grid mt dt).get ⟨i, h⟩ = (i : ℚ) * dt := by
  have h' : i < ⌈(mt + dt) / dt⌉₊ := by rwa [t_grid_length] at h
  simp only [List.get_eq_getElem, t_grid_eq, List.getElem_map, List.getElem_range]

theorem t_grid_length_pos (mt dt : ℚ) (hmt : 0 < mt) (hdt : 0 < dt) :
    0 < (t_grid mt dt).length := by
  rw [t_grid_length, Nat.ceil_pos]
  exact div_pos (by linarith) hdt

theorem t_grid_head (mt dt : ℚ) (hmt : 0 < mt) (hdt : 0 < dt) :
    (t_grid mt dt).head? = some 0 := by
  have hlen := t_grid_length_pos mt dt hmt hdt
  rw [t_grid_length] at hlen
  rw [t_grid_eq]
  have hsplit : ⌈(mt + dt) / dt⌉₊ = (⌈(mt + dt) / dt⌉₊ - 1) + 1 := by omega
  rw [hsplit, List.range_succ_eq_map]
  simp

theorem t_grid_chain_lt (mt dt : ℚ) (hdt : 0 < dt) :
    List.Chain' (· < ·) (t_grid mt dt) := by
  rw [List.chain'_iff_get]
  intro i h
  rw [t_grid_get, t_grid_get]
  have hcast : (i : ℚ) < ((i + 1 : ℕ) : ℚ) := by push_cast; linarith
  exact mul_lt_mul_of_pos_right hcast hdt

theorem t_grid_spacing (mt dt : ℚ) (i : ℕ) (h : i + 1 < (t_grid mt dt).length) :
    (t_grid mt dt).get ⟨i + 1, h⟩ - (t_grid mt dt).get ⟨i, by omega⟩ = dt := by
  rw [t_grid_get, t_grid_get]
  have hcast : ((i + 1 : ℕ) : ℚ) = (i : ℚ) + 1 := by push_cast; ring
  rw [hcast]
  ring

theorem t_grid_divisible (mt dt : ℚ) (hdt : 0 < dt) (q : ℕ) (hq : mt = q * dt) :
    (t_grid mt dt).getLast? = some mt ∧ ∀ x ∈ t_grid mt dt, x ≤ mt := by
  have hdiv : (mt + dt) / dt = ((q + 1 : ℕ) : ℚ) := by
    rw [hq]
    field_simp
    ring
  have hN : ⌈(mt + dt) / dt⌉₊ = q + 1 := by rw [hdiv, Nat.ceil_natCast]
  constructor
  · rw [t_grid_eq, hN]
    have hr : List.range (q + 1) = List.range q ++ [q] := List.range_succ q
    rw [hr, List.map_append, List.map_singleton, List.getLast?_concat, hq]
  · intro x hx
    rw [t_grid_eq, hN] at hx
    obtain ⟨k, hk, rfl⟩ := List.mem_map.mp hx
    rw [List.mem_range] at hk
    have hk' : (k : ℚ) ≤ (q : ℚ) := by exact_mod_cast Nat.lt_succ_iff.mp hk
    rw [hq]
    exact mul_le_mul_of_nonneg_right hk' (le_of_lt hdt)

/-! ## Helper lemmas about `cumulative_trapezoid` -/

theorem cumtrapzGo_chain (ys : List ℚ) : ∀ (ts : List ℚ) (acc y0 t0 : ℚ),
    0 ≤ y0 → (∀ y ∈ ys, 0 ≤ y) → List.Chain (· ≤ ·) t0 ts →
    List.Chain (· ≤ ·) acc (cumtrapzGo acc y0 t0 ys ts) := by
  induction ys with
  | nil =>
      intro ts acc y0 t0 _ _ _
      cases ts <;> exact List.Chain.nil
  | cons y1 ys' ih =>
      intro ts acc y0 t0 hy0 hys hts
      cases ts with
      | nil => exact List.Chain.nil
      | cons t1 ts' =>
          rw [List.chain_cons] at hts
          have hy1 : 0 ≤ y1 := hys y1 (by simp)
          have hstep : acc ≤ acc + (y0 + y1) / 2 * (t1 - t0) := by
            have h1 : 0 ≤ (y0 + y1) / 2 := by linarith
            have h2 : 0 ≤ t1 - t0 := by linarith [hts.1]
            nlinarith
          show List.Chain _ acc (_ :: _)
          rw [List.chain_cons]
          exact ⟨hstep, ih ts' _ y1 t1 hy1 (fun y hy => hys y (by simp [hy])) hts.2⟩

theorem cumulative_trapezoid_chain' (ys ts : List ℚ) (hys : ∀ y ∈ ys, 0 ≤ y)
    (hts : List.Chain' (· ≤ ·) ts) :
    List.Chain' (· ≤ ·) (cumulative_trapezoid ys ts) := by
  cases ys with
  | nil => exact List.chain'_nil
  | cons y0 ys' =>
      cases ts with
      | nil => exact List.chain'_nil
      | cons t0 ts' =>
          show List.Chain (· ≤ ·) 0 (cumtrapzGo 0 y0 t0 ys' ts')
          exact cumtrapzGo_chain ys' ts' 0 y0 t0 (hys y0 (by simp))
            (fun y hy => hys y (by simp [hy])) hts

theorem cumulative_trapezoid_head (y0 t0 : ℚ) (ys ts : List ℚ) :
    (cumulative_trapezoid (y0 :: ys) (t0 :: ts)).head? = some 0 := rfl

theorem chain_le_getLastD : ∀ (l : List ℚ) (a : ℚ),
    List.Chain (· ≤ ·) a l → a ≤ l.getLastD a := by
  intro l
  induction l with
  | nil => intro a _; simp
  | cons b l' ih =>
      intro a h
      rw [List.chain_cons] at h
      have h2 : b ≤ l'.getLastD b := ih b h.2
      calc a ≤ b := h.1
        _ ≤ l'.getLastD b := h2
        _ = (b :: l').getLastD a := (List.getLastD_cons a b l').symm

theorem getLastD_of_ne_nil (l : List ℚ) (h : l ≠ []) (d d' : ℚ) :
    l.getLastD d = l.getLastD d' := by
  cases l with
  | nil => exact absurd rfl h
  | cons c l'' => rw [List.getLastD_cons, List.getLastD_cons]

theorem chain'_le_getLastD (l : List ℚ) (h : List.Chain' (· ≤ ·) l) :
    ∀ x ∈ l, x ≤ l.getLastD 0 := by
  induction l with
  | nil => simp
  | cons a l' ih =>
      intro x hx
      have hch : List.Chain (· ≤ ·) a l' := h
      rw [List.getLastD_cons]
      rcases List.mem_cons.mp hx with rfl | hx'
      · exact chain_le_getLastD l' x hch
      · have hl'ne : l' ≠ [] := List.ne_nil_of_mem hx'
        have hch' : List.Chain' (· ≤ ·) l' := by
          cases l' with
          | nil => exact List.chain'_nil
          | cons b l'' => exact (List.chain_cons.mp hch).2
        calc x ≤ l'.getLastD 0 := ih hch' x hx'
          _ = l'.getLastD a := getLastD_of_ne_nil l' hl'ne 0 a

/-!
## C2: the time grid

The claim fails as stated: when `max_time` is not an integer multiple of
`accuracy`, `np.arange(0, max_time + dt, dt)` overshoots `max_time`.
-/

/-- C2 (counterexample): with `max_time = 1` and `accuracy = 2`, the grid is
`[0, 2]`: its element `2` exceeds `max_time` and the last element is not
`max_time`. -/
theorem time_grid_claim_cex :
    t_grid 1 2 = [0, 2] ∧ ¬ (∀ x ∈ t_grid 1 2, x ≤ 1) ∧
      (t_grid 1 2).getLast? ≠ some 1 := by
  have hceil : ⌈((1 : ℚ) + 2) / 2⌉₊ = 2 := by
    rw [Nat.ceil_eq_iff (by norm_num)]
    norm_num
  have hg : t_grid 1 2 = [0, 2] := by
    rw [t_grid_eq, hceil]
    norm_num [List.range_succ]
  refine ⟨hg, ?_, ?_⟩
  · intro h
    have h2 := h 2 (by rw [hg]; simp)
    norm_num at h2
  · rw [hg]
    simp

/-- C2 (amended): for positive `max_time` and `accuracy`, the grid is
strictly increasing, starts at 0 and has constant spacing `dt = accuracy`;
and whenever `max_time` is an integer multiple of `accuracy` it runs from 0
to `max_time` inclusive (every element is at most `max_time` and the last
element equals `max_time`). -/
theorem time_grid_spec (mt dt : ℚ) (hmt : 0 < mt) (hdt : 0 < dt) :
    (t_grid mt dt).head? = some 0
    ∧ List.Chain' (· < ·) (t_grid mt dt)
    ∧ (∀ i (h : i + 1 < (t_grid mt dt).length),
        (t_grid mt dt).get ⟨i + 1, h⟩ - (t_grid mt dt).get ⟨i, by omega⟩ = dt)
    ∧ (∀ q : ℕ, mt = q * dt →
        (t_grid mt dt).getLast? = some mt ∧ ∀ x ∈ t_grid mt dt, x ≤ mt) :=
  ⟨t_grid_head mt dt hmt hdt, t_grid_chain_lt mt dt hdt,
    fun i h => t_grid_spacing mt dt i h,
    fun q hq => t_grid_divisible mt dt hdt q hq⟩

/-- Witness for C2 at `max_time = 1`, `accuracy = 1/2` (`q = 2`). -/
theorem time_grid_spec_witness :
    (0 : ℚ) < 1 ∧ (0 : ℚ) < 1 / 2 ∧ (1 : ℚ) = (2 : ℕ) * (1 / 2) ∧
      (t_grid 1 (1 / 2)).getLast? = some 1 :=
  ⟨by norm_num, by norm_num, by norm_num,
    ((time_grid_spec 1 (1 / 2) (by norm_num) (by norm_num)).2.2.2 2 (by norm_num)).1⟩

/-! ## C6: the mass model -/

/-- C6: for every time `t` the mass model returns
`MASS_BASE + K*(t - t3)^2` on `0 ≤ t ≤ t3` (with `t3 = 1.280275` and
`K = 0.008*40000^2/51211^2`) and exactly `MASS_BASE` for `t > t3` or
`t < 0`; consequently `mass t ≥ MASS_BASE > 0` everywhere, the minimum over
`[0, t3]` is attained exactly at `t = t3` (value `MASS_BASE` there, strictly
larger before), and mass is constant at `MASS_BASE` after `t3`. -/
theorem mass_model_spec :
    MASS_CENTER = 1.280275 ∧ MASS_MAX_X = 1.280275
    ∧ MASS_COEFF_NUM / MASS_COEFF_DEN = 0.008 * (40000 : ℚ)^2 / (51211 : ℚ)^2
    ∧ 0 < MASS_BASE
    ∧ mass MASS_MAX_X = MASS_BASE
    ∧ ∀ t : ℚ,
        (0 ≤ t → t ≤ MASS_MAX_X →
          mass t = MASS_BASE + MASS_COEFF_NUM / MASS_COEFF_DEN * (t - MASS_CENTER)^2)
        ∧ ((MASS_MAX_X < t ∨ t < 0) → mass t = MASS_BASE)
        ∧ MASS_BASE ≤ mass t
        ∧ (0 ≤ t → t < MASS_MAX_X → MASS_BASE < mass t) := by
  have hK : 0 < MASS_COEFF_NUM / MASS_COEFF_DEN := by
    unfold MASS_COEFF_NUM MASS_COEFF_DEN
    positivity
  have hMX : (0 : ℚ) < MASS_MAX_X := by norm_num [MASS_MAX_X]
  have hCX : MASS_CENTER = MASS_MAX_X := by norm_num [MASS_CENTER, MASS_MAX_X]
  refine ⟨rfl, rfl, rfl, by norm_num [MASS_BASE], ?_, ?_⟩
  · rw [mass, if_neg (by linarith), if_pos le_rfl, hCX]
    ring
  · intro t
    refine ⟨?_, ?_, ?_, ?_⟩
    · intro h0 h1
      rw [mass, if_neg (by linarith), if_pos h1]
    · rintro (h | h)
      · rw [mass, if_neg (by linarith), if_neg (by linarith)]
      · rw [mass, if_pos h]
    · rw [mass]
      split_ifs with h1 h2
      · exact le_refl MASS_BASE
      · nlinarith [sq_nonneg (t - MASS_CENTER)]
      · exact le_refl MASS_BASE
    · intro h0 h1
      rw [mass, if_neg (by linarith), if_pos (le_of_lt h1)]
      have hne : t - MASS_CENTER ≠ 0 := by rw [hCX]; intro hc; nlinarith
      nlinarith [sq_pos_of_ne_zero hne]

/-- Witness for C6 at `t = 2` (after burnout) and `t = 0` (burn phase). -/
theorem mass_model_spec_witness :
    ((MASS_MAX_X < 2 ∨ (2 : ℚ) < 0) ∧ mass 2 = MASS_BASE) ∧
      ((0 : ℚ) ≤ 0 ∧ (0 : ℚ) ≤ MASS_MAX_X ∧
        mass 0 = MASS_BASE + MASS_COEFF_NUM / MASS_COEFF_DEN * (0 - MASS_CENTER)^2) :=
  ⟨⟨Or.inl (by norm_num [MASS_MAX_X]),
    ((mass_model_spec.2.2.2.2.2 2).2.1 (Or.inl (by norm_num [MASS_MAX_X])))⟩,
   ⟨le_refl 0, by norm_num [MASS_MAX_X],
    ((mass_model_spec.2.2.2.2.2 0).1 le_rfl (by norm_num [MASS_MAX_X]))⟩⟩

/-! ## C10: the drag-area validator accepts the band boundaries -/

/-- C10: `validate_cda` accepts the band boundaries exactly — it returns
`(true, "")` at `MIN_CDA` and `MAX_CDA` and on the whole closed band, and
rejects exactly the values strictly below `MIN_CDA` or strictly above
`MAX_CDA` (besides `None` and non-numeric inputs; non-positive values fall
strictly below `MIN_CDA`). -/
theorem validate_cda_band :
    validate_cda (CdaInput.num MIN_CDA) = (true, "")
    ∧ validate_cda (CdaInput.num MAX_CDA) = (true, "")
    ∧ (∀ q : ℚ, MIN_CDA ≤ q → q ≤ MAX_CDA → validate_cda (CdaInput.num q) = (true, ""))
    ∧ (∀ q : ℚ, q < MIN_CDA ∨ MAX_CDA < q → (validate_cda (CdaInput.num q)).1 = false)
    ∧ (validate_cda CdaInput.nothing).1 = false
    ∧ (∀ text : String, (validate_cda (CdaInput.nonNumeric text)).1 = false) := by
  have hmin : (0 : ℚ) < MIN_CDA := by norm_num [MIN_CDA]
  have hband : ∀ q : ℚ, MIN_CDA ≤ q → q ≤ MAX_CDA →
      validate_cda (CdaInput.num q) = (true, "") := by
    intro q h1 h2
    rw [validate_cda.eq_def]
    simp only
    rw [if_neg (by linarith), if_neg (by linarith), if_neg (by linarith)]
  refine ⟨hband MIN_CDA le_rfl (by norm_num [MIN_CDA, MAX_CDA]),
    hband MAX_CDA (by norm_num [MIN_CDA, MAX_CDA]) le_rfl, hband, ?_, rfl, fun _ => rfl⟩
  intro q hq
  rw [validate_cda.eq_def]
  simp only
  split_ifs with h1 h2 h3
  · rfl
  · rfl
  · rfl
  · rcases hq with h | h
    · exact absurd h h2
    · exact absurd h h3

/-- Witness for C10 at `q = DEFAULT_CDA = 0.5` (inside the band) and
`q = 2` (above the band). -/
theorem validate_cda_band_witness :
    (MIN_CDA ≤ DEFAULT_CDA ∧ DEFAULT_CDA ≤ MAX_CDA ∧
      validate_cda (CdaInput.num DEFAULT_CDA) = (true, "")) ∧
    (((2 : ℚ) < MIN_CDA ∨ MAX_CDA < 2) ∧ (validate_cda (CdaInput.num 2)).1 = false) :=
  ⟨⟨by norm_num [MIN_CDA, DEFAULT_CDA], by norm_num [MAX_CDA, DEFAULT_CDA],
    validate_cda_band.2.2.1 DEFAULT_CDA (by norm_num [MIN_CDA, DEFAULT_CDA])
      (by norm_num [MAX_CDA, DEFAULT_CDA])⟩,
   ⟨Or.inr (by norm_num [MAX_CDA]),
    validate_cda_band.2.2.2.1 2 (Or.inr (by norm_num [MAX_CDA]))⟩⟩

/-! ## C9: determinism of the integration engine -/

/-- C9: `integrate_motion` is deterministic — two invocations with equal
inputs (drag area, model functions, max_time, accuracy) return equal time,
velocity and displacement series and equal crossing time, peak speed and
peak-speed time. -/
theorem integrate_motion_deterministic
    (cda cda' : ℚ) (fc fc' mf mf' : ℚ → ℚ) (df df' : ℚ → ℚ → ℚ) (mt mt' acc acc' : ℚ)
    (h1 : cda = cda') (h2 : fc = fc') (h3 : mf = mf') (h4 : df = df')
    (h5 : mt = mt') (h6 : acc = acc') :
    (integrate_motion cda fc mf df mt acc).t = (integrate_motion cda' fc' mf' df' mt' acc').t
    ∧ (integrate_motion cda fc mf df mt acc).v
        = (integrate_motion cda' fc' mf' df' mt' acc').v
    ∧ (integrate_motion cda fc mf df mt acc).s
        = (integrate_motion cda' fc' mf' df' mt' acc').s
    ∧ (integrate_motion cda fc mf df mt acc).time_to_20m
        = (integrate_motion cda' fc' mf' df' mt' acc').time_to_20m
    ∧ (integrate_motion cda fc mf df mt acc).top_speed
        = (integrate_motion cda' fc' mf' df' mt' acc').top_speed
    ∧ (integrate_motion cda fc mf df mt acc).top_speed_time
        = (integrate_motion cda' fc' mf' df' mt' acc').top_speed_time := by
  subst h1 h2 h3 h4 h5 h6
  exact ⟨rfl, rfl, rfl, rfl, rfl, rfl⟩

/-- Witness for C9 on a concrete run (constant unit thrust and mass, zero
drag, `max_time = accuracy = 1`). -/
theorem integrate_motion_deterministic_witness :
    (1 : ℚ) = 1 ∧
    (integrate_motion 1 (fun _ => 1) (fun _ => 1) (fun _ _ => 0) 1 1).v =
      (integrate_motion 1 (fun _ => 1) (fun _ => 1) (fun _ _ => 0) 1 1).v :=
  ⟨rfl,
    (integrate_motion_deterministic 1 1 (fun _ => 1) (fun _ => 1) (fun _ => 1) (fun _ => 1)
      (fun _ _ => 0) (fun _ _ => 0) 1 1 1 1 rfl rfl rfl rfl rfl rfl).2.1⟩

/-! ## C1: `solve_canister_car` raises for every validated drag area

The claim fails against the code: for any drag area that passes validation,
`solve_canister_car` (solver.py:126-134) calls
`integrate_motion(..., mass_value=mass_value)`, but `integrate_motion`
(integrator.py:40) accepts no `mass_value` parameter, so Python raises a
TypeError before the engine runs, and the per-run mass-model reference is
never threaded into the integration (`integrate_motion` calls `mass_func(t)`
with the time array only; `compute_forces` likewise calls
`mass(t, mass_value)` although `mass` takes a single argument). -/

/-- C1 (code bug): at the valid drag area `DEFAULT_CDA = 0.5` with
`max_time = 1`, `accuracy = 1/2` and the default mass reference,
`solve_canister_car` raises a TypeError instead of returning a result. -/
theorem solve_canister_car_type_error :
    solve_canister_car (CdaInput.num DEFAULT_CDA) 1 (1 / 2) MASS_BASE_M =
      Except.error "TypeError: integrate_motion got an unexpected keyword argument mass_value" := by
  have hv : validate_cda (CdaInput.num DEFAULT_CDA) = (true, "") := by
    rw [validate_cda.eq_def]
    simp only
    rw [if_neg (by norm_num [DEFAULT_CDA]),
      if_neg (by norm_num [DEFAULT_CDA, MIN_CDA]),
      if_neg (by norm_num [DEFAULT_CDA, MAX_CDA])]
  simp [solve_canister_car, solve_canister_car_with, hv, integrate_motion_call_in_solver]

/-! ## C4: invalid drag areas fail fast -/

theorem validate_cda_fail_msg (cda : CdaInput) (h : (validate_cda cda).1 = false) :
    (validate_cda cda).2 ≠ "" := by
  cases cda with
  | nothing => simp [validate_cda]
  | nonNumeric text => simp [validate_cda]
  | num q =>
      rw [validate_cda.eq_def] at h ⊢
      simp only at h ⊢
      split_ifs at h ⊢ <;> simp_all

/-- C4: for every drag-area input rejected by the validator,
`solve_canister_car` returns a failed result (success flag `false`) with a
non-empty error message and no sample series, and does so independently of
the integration engine (the integration call is never consulted). -/
theorem invalid_cda_result (cda : CdaInput) (mt acc mv : ℚ)
    (h : (validate_cda cda).1 = false) :
    (∀ I I', solve_canister_car_with I cda mt acc mv
        = solve_canister_car_with I' cda mt acc mv)
    ∧ ∃ r, solve_canister_car cda mt acc mv = Except.ok r
        ∧ r.success = false
        ∧ r.message = Msg.errorText (validate_cda cda).2
        ∧ (validate_cda cda).2 ≠ ""
        ∧ r.t = Option.none ∧ r.v = Option.none ∧ r.s = Option.none := by
  rcases hvc : validate_cda cda with ⟨b, msg⟩
  rw [hvc] at h
  simp only at h
  subst h
  constructor
  · intro I I'
    simp [solve_canister_car_with, hvc]
  · refine ⟨SolverResult.ofIntegration
      { success := false, message := Msg.errorText msg } cda Option.none mv, ?_, rfl, ?_, ?_, rfl, rfl, rfl⟩
    · simp [solve_canister_car, solve_canister_car_with, hvc]
    · rfl
    · have := validate_cda_fail_msg cda (by rw [hvc])
      rwa [hvc] at this

/-- Witness for C4 at the rejected drag area `0`. -/
theorem invalid_cda_result_witness :
    (validate_cda (CdaInput.num 0)).1 = false ∧
    (∃ r, solve_canister_car (CdaInput.num 0) 1 (1 / 2) MASS_BASE_M = Except.ok r
        ∧ r.success = false
        ∧ r.message = Msg.errorText (validate_cda (CdaInput.num 0)).2
        ∧ (validate_cda (CdaInput.num 0)).2 ≠ ""
        ∧ r.t = Option.none ∧ r.v = Option.none ∧ r.s = Option.none) := by
  have h : (validate_cda (CdaInput.num 0)).1 = false := by simp [validate_cda]
  exact ⟨h, (invalid_cda_result (CdaInput.num 0) 1 (1 / 2) MASS_BASE_M h).2⟩

/-! ## C5: the displacement series is non-decreasing from 0 -/

theorem cumtrapzGo_length (ys : List ℚ) : ∀ (ts : List ℚ) (acc y0 t0 : ℚ),
    (cumtrapzGo acc y0 t0 ys ts).length = min ys.length ts.length := by
  induction ys with
  | nil => intro ts acc y0 t0; cases ts <;> simp [cumtrapzGo]
  | cons y1 ys' ih =>
      intro ts acc y0 t0
      cases ts with
      | nil => simp [cumtrapzGo]
      | cons t1 ts' =>
          show (_ :: cumtrapzGo _ y1 t1 ys' ts').length = _
          simp only [List.length_cons, ih ts']
          omega

theorem cumulative_trapezoid_length (ys ts : List ℚ) :
    (cumulative_trapezoid ys ts).length = min ys.length ts.length := by
  match ys, ts with
  | [], ts => cases ts <;> simp [cumulative_trapezoid]
  | y0 :: ys', [] => simp [cumulative_trapezoid]
  | y0 :: ys', t0 :: ts' =>
      show (0 :: cumtrapzGo 0 y0 t0 ys' ts').length = _
      simp only [List.length_cons, cumtrapzGo_length]
      omega

theorem v_actual_series_length (cda : ℚ) (fc mf : ℚ → ℚ) (df : ℚ → ℚ → ℚ) (mt dt : ℚ) :
    (v_actual_series cda fc mf df mt dt).length = (t_grid mt dt).length := by
  simp only [v_actual_series, a_actual_series, F_resultant_series, F_drag_series,
    v_nodrag_series, a_canister_series, m_series, F_canister_series, mask_divide,
    List.length_map, List.length_zipWith, cumulative_trapezoid_length]
  omega

theorem s_series_length (cda : ℚ) (fc mf : ℚ → ℚ) (df : ℚ → ℚ → ℚ) (mt dt : ℚ) :
    (s_series cda fc mf df mt dt).length = (t_grid mt dt).length := by
  simp only [s_series, cumulative_trapezoid_length, v_actual_series_length]
  omega

theorem v_actual_series_nonneg (cda : ℚ) (fc mf : ℚ → ℚ) (df : ℚ → ℚ → ℚ) (mt dt : ℚ) :
    ∀ vel ∈ v_actual_series cda fc mf df mt dt, 0 ≤ vel := by
  intro vel hvel
  rw [v_actual_series] at hvel
  obtain ⟨w, _, rfl⟩ := List.mem_map.mp hvel
  exact le_max_right w 0

/-- C5: for every run of `integrate_motion` (positive `max_time` and
`accuracy`), the displacement series is the cumulative trapezoid of the
clamped velocity series, starts at exactly 0, and is non-decreasing
(`s[i] ≤ s[i+1]` at every index below the last), the clamped velocity being
non-negative at every index. -/
theorem displacement_monotone (cda : ℚ) (fc mf : ℚ → ℚ) (df : ℚ → ℚ → ℚ) (mt dt : ℚ)
    (hmt : 0 < mt) (hdt : 0 < dt) :
    (integrate_motion cda fc mf df mt dt).s = some (s_series cda fc mf df mt dt)
    ∧ (s_series cda fc mf df mt dt).head? = some 0
    ∧ (∀ i (h : i + 1 < (s_series cda fc mf df mt dt).length),
        (s_series cda fc mf df mt dt).get ⟨i, by omega⟩
          ≤ (s_series cda fc mf df mt dt).get ⟨i + 1, h⟩)
    ∧ (∀ vel ∈ v_actual_series cda fc mf df mt dt, 0 ≤ vel) := by
  have htlen := t_grid_length_pos mt dt hmt hdt
  have hvlen : 0 < (v_actual_series cda fc mf df mt dt).length := by
    rw [v_actual_series_length]; exact htlen
  have hvne : v_actual_series cda fc mf df mt dt ≠ [] := by
    intro hcon; rw [hcon] at hvlen; simp at hvlen
  have htne : t_grid mt dt ≠ [] := by
    intro hcon; rw [hcon] at htlen; simp at htlen
  have hchain : List.Chain' (· ≤ ·) (s_series cda fc mf df mt dt) := by
    rw [s_series]
    exact cumulative_trapezoid_chain' _ _
      (v_actual_series_nonneg cda fc mf df mt dt)
      ((t_grid_chain_lt mt dt hdt).imp (fun _ _ hab => le_of_lt hab))
  refine ⟨rfl, ?_, ?_, v_actual_series_nonneg cda fc mf df mt dt⟩
  · obtain ⟨v0, vs, hveq⟩ := List.exists_cons_of_ne_nil hvne
    obtain ⟨t0, ts0, hteq⟩ := List.exists_cons_of_ne_nil htne
    rw [s_series, hveq, hteq]
    exact cumulative_trapezoid_head v0 t0 vs ts0
  · intro i h
    exact List.chain'_iff_get.mp hchain i (by omega)

/-- Witness for C5 on a concrete run (`cda = 1/2`, constant unit thrust and
mass, zero drag, `max_time = 1`, `accuracy = 1/2`). -/
theorem displacement_monotone_witness :
    (0 : ℚ) < 1 ∧ (0 : ℚ) < 1 / 2 ∧
      (s_series (1 / 2) (fun _ => 1) (fun _ => 1) (fun _ _ => 0) 1 (1 / 2)).head? = some 0 :=
  ⟨by norm_num, by norm_num,
    (displacement_monotone (1 / 2) (fun _ => 1) (fun _ => 1) (fun _ _ => 0) 1 (1 / 2)
      (by norm_num) (by norm_num)).2.1⟩

/-! ## C3: the crossing-time rule -/

theorem getD_get (l : List ℚ) (n : ℕ) (h : n < l.length) : l.getD n 0 = l.get ⟨n, h⟩ := by
  rw [List.getD_eq_getElem l 0 h, List.get_eq_getElem]

theorem findIdx?_first (p : ℚ → Bool) : ∀ (l : List ℚ) (i : ℕ) (hi : i < l.length),
    p (l.get ⟨i, hi⟩) = true →
    (∀ j (hj : j < l.length), j < i → p (l.get ⟨j, hj⟩) = false) →
    l.findIdx? p = some i := by
  intro l
  induction l with
  | nil => intro i hi; simp at hi
  | cons a l' ih =>
      intro i hi hp hbefore
      rw [List.findIdx?_cons]
      cases i with
      | zero => rw [if_pos (by simpa using hp)]
      | succ i' =>
          have ha : p a = false := hbefore 0 (by simp) (Nat.succ_pos i')
          rw [if_neg (by simp [ha]), List.findIdx?_succ]
          have hi' : i' < l'.length := by simpa using Nat.lt_of_succ_lt_succ hi
          have hp' : p (l'.get ⟨i', hi'⟩) = true := by
            have h2 := hp
            rwa [List.get_cons_succ] at h2
          have hb' : ∀ j (hj : j < l'.length), j < i' → p (l'.get ⟨j, hj⟩) = false := by
            intro j hj hji
            have h2 : j + 1 < (a :: l').length := by simpa using Nat.succ_lt_succ hj
            have h3 := hbefore (j + 1) h2 (Nat.succ_lt_succ hji)
            rwa [List.get_cons_succ] at h3
          rw [ih i' hi' hp' hb']
          rfl

theorem find_crossing_time_eq_found (t s : List ℚ) (i : ℕ) (hi : i < s.length)
    (hge : TARGET_DISPLACEMENT ≤ s.getD i 0)
    (hfirst : ∀ j, j < i → s.getD j 0 < TARGET_DISPLACEMENT) :
    find_crossing_time t s =
      (if i = 0 then some (t.getD 0 0)
       else if s.getD (i - 1) 0 < s.getD i 0 then
         some (t.getD (i - 1) 0 + (TARGET_DISPLACEMENT - s.getD (i - 1) 0)
           * (t.getD i 0 - t.getD (i - 1) 0) / (s.getD i 0 - s.getD (i - 1) 0))
       else some (t.getD (i - 1) 0)) := by
  have hidx : s.findIdx? (fun x => decide (TARGET_DISPLACEMENT ≤ x)) = some i := by
    apply findIdx?_first _ _ _ hi
    · rw [getD_get s i hi] at hge
      simpa using hge
    · intro j hj hji
      have h2 := hfirst j hji
      rw [getD_get s j hj] at h2
      simpa using h2
  simp only [find_crossing_time, hidx]

theorem find_crossing_time_eq_none (t s : List ℚ)
    (h : ∀ j, j < s.length → s.getD j 0 < TARGET_DISPLACEMENT) :
    find_crossing_time t s = none := by
  have hidx : s.findIdx? (fun x => decide (TARGET_DISPLACEMENT ≤ x)) = none := by
    rw [List.findIdx?_eq_none_iff]
    intro x hx
    obtain ⟨⟨j, hj⟩, rfl⟩ := List.mem_iff_get.mp hx
    have h2 := h j hj
    rw [getD_get s j hj] at h2
    simpa using h2
  simp only [find_crossing_time, hidx]

/-- C3: the crossing time of a run of `integrate_motion` obeys the stated
rule.  For the first grid index `i` with `s[i] ≥ TARGET_DISPLACEMENT`
(characterized by its hypotheses): at `i = 0` the crossing time is `t[0]`;
at `i > 0` it is the linear interpolation when `s[i] > s[i-1]` and `t[i-1]`
when the two samples are equal.  When no index qualifies, the crossing time
is absent and the message reports the last element of `s`, which is its
maximum (the series being non-decreasing). -/
theorem crossing_time_rule (cda : ℚ) (fc mf : ℚ → ℚ) (df : ℚ → ℚ → ℚ) (mt dt : ℚ)
    (_hmt : 0 < mt) (hdt : 0 < dt) :
    (∀ i, i < (s_series cda fc mf df mt dt).length →
      TARGET_DISPLACEMENT ≤ (s_series cda fc mf df mt dt).getD i 0 →
      (∀ j, j < i → (s_series cda fc mf df mt dt).getD j 0 < TARGET_DISPLACEMENT) →
      ((i = 0 → (integrate_motion cda fc mf df mt dt).time_to_20m
          = some ((t_grid mt dt).getD 0 0))
       ∧ (0 < i → (s_series cda fc mf df mt dt).getD (i - 1) 0
            < (s_series cda fc mf df mt dt).getD i 0 →
          (integrate_motion cda fc mf df mt dt).time_to_20m
            = some ((t_grid mt dt).getD (i - 1) 0
                + (TARGET_DISPLACEMENT - (s_series cda fc mf df mt dt).getD (i - 1) 0)
                  * ((t_grid mt dt).getD i 0 - (t_grid mt dt).getD (i - 1) 0)
                  / ((s_series cda fc mf df mt dt).getD i 0
                      - (s_series cda fc mf df mt dt).getD (i - 1) 0)))
       ∧ (0 < i → (s_series cda fc mf df mt dt).getD (i - 1) 0
            = (s_series cda fc mf df mt dt).getD i 0 →
          (integrate_motion cda fc mf df mt dt).time_to_20m
            = some ((t_grid mt dt).getD (i - 1) 0))))
    ∧ ((∀ j, j < (s_series cda fc mf df mt dt).length →
          (s_series cda fc mf df mt dt).getD j 0 < TARGET_DISPLACEMENT) →
        (integrate_motion cda fc mf df mt dt).time_to_20m = none
        ∧ (integrate_motion cda fc mf df mt dt).message
            = Msg.notReached ((s_series cda fc mf df mt dt).getLastD 0)
        ∧ ∀ x ∈ s_series cda fc mf df mt dt,
            x ≤ (s_series cda fc mf df mt dt).getLastD 0) := by
  have hrt : (integrate_motion cda fc mf df mt dt).time_to_20m
      = find_crossing_time (t_grid mt dt) (s_series cda fc mf df mt dt) := rfl
  constructor
  · intro i hi hge hfirst
    have heq := find_crossing_time_eq_found (t_grid mt dt)
      (s_series cda fc mf df mt dt) i hi hge hfirst
    refine ⟨?_, ?_, ?_⟩
    · intro h0
      rw [hrt, heq, if_pos h0]
    · intro hpos hlt
      rw [hrt, heq, if_neg (by omega), if_pos hlt]
    · intro hpos hsame
      rw [hrt, heq, if_neg (by omega), if_neg (by rw [hsame]; exact lt_irrefl _)]
  · intro hnone
    have heq := find_crossing_time_eq_none (t_grid mt dt)
      (s_series cda fc mf df mt dt) hnone
    have hmsg : (integrate_motion cda fc mf df mt dt).message
        = Msg.notReached ((s_series cda fc mf df mt dt).getLastD 0) := by
      show (match find_crossing_time (t_grid mt dt) (s_series cda fc mf df mt dt) with
        | Option.some tc => Msg.reached tc
        | Option.none =>
            Msg.notReached ((s_series cda fc mf df mt dt).getLastD 0)) = _
      rw [heq]
    have hchain : List.Chain' (· ≤ ·) (s_series cda fc mf df mt dt) := by
      rw [s_series]
      exact cumulative_trapezoid_chain' _ _
        (v_actual_series_nonneg cda fc mf df mt dt)
        ((t_grid_chain_lt mt dt hdt).imp (fun _ _ hab => le_of_lt hab))
    exact ⟨by rw [hrt, heq], hmsg,
      chain'_le_getLastD (s_series cda fc mf df mt dt) hchain⟩

/-- Witness for C3 on a run that never reaches the target (`cda = 1/2`,
constant unit thrust and mass, zero drag, `max_time = accuracy = 1`;
the displacement series is `[0, 1/2]`). -/
theorem crossing_time_rule_witness :
    (0 : ℚ) < 1 ∧
    (∀ j, j < (s_series (1 / 2) (fun _ => 1) (fun _ => 1) (fun _ _ => 0) 1 1).length →
      (s_series (1 / 2) (fun _ => 1) (fun _ => 1) (fun _ _ => 0) 1 1).getD j 0
        < TARGET_DISPLACEMENT) ∧
    (integrate_motion (1 / 2) (fun _ => 1) (fun _ => 1) (fun _ _ => 0) 1 1).time_to_20m
      = none := by
  have hceil : ⌈((1 : ℚ) + 1) / 1⌉₊ = 2 := by
    rw [show ((1 : ℚ) + 1) / 1 = ((2 : ℕ) : ℚ) by norm_num, Nat.ceil_natCast]
  have hg : t_grid 1 1 = [0, 1] := by
    rw [t_grid_eq, hceil]
    norm_num [List.range_succ]
  have h1 : F_canister_series (fun _ => (1 : ℚ)) 1 1 = [1, 1] := by
    rw [F_canister_series, hg]; norm_num
  have h2 : m_series (fun _ => (1 : ℚ)) 1 1 = [1, 1] := by
    rw [m_series, hg]; norm_num
  have h3 : a_canister_series (fun _ => (1 : ℚ)) (fun _ => 1) 1 1 = [1, 1] := by
    rw [a_canister_series, h1, h2, mask_divide]; norm_num
  have h4 : v_nodrag_series (fun _ => (1 : ℚ)) (fun _ => 1) 1 1 = [0, 1] := by
    rw [v_nodrag_series, h3, hg]; norm_num [cumulative_trapezoid, cumtrapzGo]
  have h5 : F_drag_series (1 / 2) (fun _ => (1 : ℚ)) (fun _ => 1) (fun _ _ => 0) 1 1
      = [0, 0] := by
    rw [F_drag_series, h4]; norm_num
  have h6 : F_resultant_series (1 / 2) (fun _ => (1 : ℚ)) (fun _ => 1) (fun _ _ => 0) 1 1
      = [1, 1] := by
    rw [F_resultant_series, h1, h5]; norm_num
  have h7 : a_actual_series (1 / 2) (fun _ => (1 : ℚ)) (fun _ => 1) (fun _ _ => 0) 1 1
      = [1, 1] := by
    rw [a_actual_series, h6, h2, mask_divide]; norm_num
  have h8 : v_actual_series (1 / 2) (fun _ => (1 : ℚ)) (fun _ => 1) (fun _ _ => 0) 1 1
      = [0, 1] := by
    rw [v_actual_series, h7, hg]; norm_num [cumulative_trapezoid, cumtrapzGo]
  have hs : s_series (1 / 2) (fun _ => 1) (fun _ => 1) (fun _ _ => 0) 1 1 = [0, 1 / 2] := by
    rw [s_series, h8, hg]; norm_num [cumulative_trapezoid, cumtrapzGo]
  have hj : ∀ j, j < (s_series (1 / 2) (fun _ => 1) (fun _ => 1) (fun _ _ => 0) 1 1).length →
      (s_series (1 / 2) (fun _ => 1) (fun _ => 1) (fun _ _ => 0) 1 1).getD j 0
        < TARGET_DISPLACEMENT := by
    rw [hs]
    intro j hj
    simp only [List.length_cons, List.length_nil] at hj
    interval_cases j <;> norm_num [TARGET_DISPLACEMENT]
  exact ⟨by norm_num, hj,
    ((crossing_time_rule (1 / 2) (fun _ => 1) (fun _ => 1) (fun _ _ => 0) 1 1
      (by norm_num) (by norm_num)).2 hj).1⟩

/-! ## C7: the thrust model outside and inside the burn window -/

/-- C7: the thrust model returns exactly 0 for `t < 0` and for
`t > 1.280275` (the burn-end literal of the source), both on the scalar
path and — via elementwise agreement of the array path with the scalar
path — at every corresponding position of an array call; inside `[0, t3]`
it selects `f1`, `f2` or `f3` according to which of `[0, t1)`, `[t1, t2)`,
`[t2, t3]` contains `t`. -/
theorem canister_force_spec :
    (∀ t : ℝ,
      ((t < 0 ∨ (1.280275 : ℝ) < t) → canister_force t = 0)
      ∧ (0 ≤ t → t < ((X_RANGE_1_END : ℚ) : ℝ) → canister_force t = f1 t)
      ∧ (((X_RANGE_1_END : ℚ) : ℝ) ≤ t → t < ((X_RANGE_2_END : ℚ) : ℝ) →
          canister_force t = f2 t)
      ∧ (((X_RANGE_2_END : ℚ) : ℝ) ≤ t → t ≤ (1.280275 : ℝ) → canister_force t = f3 t))
    ∧ (∀ xs : List ℝ, canister_force_arr xs = xs.map canister_force) := by
  have hA0 : (0 : ℝ) < ((X_RANGE_1_END : ℚ) : ℝ) := by norm_num [X_RANGE_1_END]
  have hAB : ((X_RANGE_1_END : ℚ) : ℝ) < ((X_RANGE_2_END : ℚ) : ℝ) := by
    norm_num [X_RANGE_1_END, X_RANGE_2_END]
  have hBC : ((X_RANGE_2_END : ℚ) : ℝ) < (1.280275 : ℝ) := by norm_num [X_RANGE_2_END]
  have hscalar : ∀ t : ℝ,
      ((t < 0 ∨ (1.280275 : ℝ) < t) → canister_force t = 0)
      ∧ (0 ≤ t → t < ((X_RANGE_1_END : ℚ) : ℝ) → canister_force t = f1 t)
      ∧ (((X_RANGE_1_END : ℚ) : ℝ) ≤ t → t < ((X_RANGE_2_END : ℚ) : ℝ) →
          canister_force t = f2 t)
      ∧ (((X_RANGE_2_END : ℚ) : ℝ) ≤ t → t ≤ (1.280275 : ℝ) → canister_force t = f3 t) := by
    intro t
    refine ⟨?_, ?_, ?_, ?_⟩
    · rintro (h | h)
      · rw [canister_force, if_pos h]
      · rw [canister_force, if_neg (by linarith), if_neg (by linarith),
          if_neg (by linarith), if_neg (by linarith)]
    · intro h0 h1
      rw [canister_force, if_neg (not_lt.mpr h0), if_pos h1]
    · intro h1 h2
      rw [canister_force, if_neg (by linarith), if_neg (not_lt.mpr h1), if_pos h2]
    · intro h2 h3
      rw [canister_force, if_neg (by linarith), if_neg (by push_neg; linarith),
        if_neg (not_lt.mpr h2), if_pos h3]
  refine ⟨hscalar, ?_⟩
  intro xs
  rw [canister_force_arr]
  refine List.map_congr_left ?_
  intro x _
  by_cases hx0 : x < 0
  · rw [if_neg (by push_neg; intro h; linarith), if_neg (by push_neg; intro h; linarith),
      if_neg (by push_neg; intro h; linarith)]
    exact ((hscalar x).1 (Or.inl hx0)).symm
  · push_neg at hx0
    by_cases h1 : x < ((X_RANGE_1_END : ℚ) : ℝ)
    · rw [if_pos ⟨hx0, h1⟩]
      exact ((hscalar x).2.1 hx0 h1).symm
    · push_neg at h1
      by_cases h2 : x < ((X_RANGE_2_END : ℚ) : ℝ)
      · rw [if_neg (by push_neg; intro _; exact h1), if_pos ⟨h1, h2⟩]
        exact ((hscalar x).2.2.1 h1 h2).symm
      · push_neg at h2
        by_cases h3 : x ≤ (1.280275 : ℝ)
        · rw [if_neg (by push_neg; intro _; exact h1),
            if_neg (by push_neg; intro _; exact h2), if_pos ⟨h2, h3⟩]
          exact ((hscalar x).2.2.2 h2 h3).symm
        · push_neg at h3
          rw [if_neg (by push_neg; intro _; exact h1),
            if_neg (by push_neg; intro _; exact h2),
            if_neg (by push_neg; intro _; linarith)]
          exact ((hscalar x).1 (Or.inr h3)).symm

/-- Witness for C7 at `t = 2` (after burn end) and `t = -1` (before
launch). -/
theorem canister_force_spec_witness :
    (((2 : ℝ) < 0 ∨ (1.280275 : ℝ) < 2) ∧ canister_force 2 = 0) ∧
    (((-1 : ℝ) < 0 ∨ (1.280275 : ℝ) < -1) ∧ canister_force (-1) = 0) :=
  ⟨⟨Or.inr (by norm_num), (canister_force_spec.1 2).1 (Or.inr (by norm_num))⟩,
   ⟨Or.inl (by norm_num), (canister_force_spec.1 (-1)).1 (Or.inl (by norm_num))⟩⟩

/-! ## C8: resampling preserves endpoints and does not alter the source -/

theorem np_linspace_length (a b : ℚ) (n : ℕ) : (np_linspace a b n).length = n := by
  simp [np_linspace]

theorem np_linspace_head (a b : ℚ) (n : ℕ) (hn : 0 < n) :
    (np_linspace a b n).head? = some a := by
  obtain ⟨m, rfl⟩ : ∃ m, n = m + 1 := ⟨n - 1, by omega⟩
  rw [np_linspace, List.range_succ_eq_map]
  simp only [List.map_cons, List.head?_cons]
  congr 1
  split_ifs with h
  · rfl
  · norm_num

theorem np_linspace_getLast (a b : ℚ) (n : ℕ) (hn : 2 ≤ n) :
    (np_linspace a b n).getLast? = some b := by
  obtain ⟨m, rfl⟩ : ∃ m, n = m + 1 := ⟨n - 1, by omega⟩
  rw [np_linspace, List.range_succ, List.map_append, List.map_singleton,
    List.getLast?_concat]
  congr 1
  rw [if_neg (by omega)]
  have hm1 : 1 ≤ m := by omega
  have hm0 : ((m : ℚ)) ≠ 0 := by
    have : (0 : ℚ) < (m : ℚ) := by exact_mod_cast hm1
    exact ne_of_gt this
  have hcast : ((m + 1 : ℕ) : ℚ) - 1 = (m : ℚ) := by push_cast; ring
  rw [hcast]
  field_simp

theorem getLast?_of_ne_nil : ∀ (l : List ℚ), l ≠ [] → l.getLast? = some (l.getLastD 0)
  | [_], _ => rfl
  | a :: b :: l, _ => by
      rw [List.getLast?_cons_cons, getLast?_of_ne_nil (b :: l) (by simp),
        List.getLastD_cons 0 a (b :: l)]
      exact congrArg some (getLastD_of_ne_nil (b :: l) (by simp) 0 a)

theorem np_interp_head (t0 : ℚ) (ts0 : List ℚ) (f0 : ℚ) (fs0 : List ℚ) :
    np_interp t0 (t0 :: ts0) (f0 :: fs0) = f0 := by
  simp only [np_interp, if_pos (le_refl t0)]

theorem chain_lt_getLastD : ∀ (l : List ℚ) (a d : ℚ),
    List.Chain (· < ·) a l → l ≠ [] → a < l.getLastD d := by
  intro l
  induction l with
  | nil => intro a d _ hne; exact absurd rfl hne
  | cons b l' ih =>
      intro a d h _
      rw [List.chain_cons] at h
      rw [List.getLastD_cons]
      by_cases hl' : l' = []
      · subst hl'; simpa using h.1
      · exact lt_trans h.1 (ih b b h.2 hl')

theorem interpGo_last : ∀ (xs fs : List ℚ) (x0 f0 : ℚ),
    List.Chain (· < ·) x0 xs → fs.length = xs.length →
    interpGo (xs.getLastD x0) x0 f0 xs fs = fs.getLastD f0 := by
  intro xs
  induction xs with
  | nil =>
      intro fs x0 f0 _ hl
      have hfs : fs = [] := List.length_eq_zero.mp (by simpa using hl)
      subst hfs
      simp [interpGo]
  | cons x1 xs' ih =>
      intro fs x0 f0 hc hl
      rw [List.chain_cons] at hc
      obtain ⟨f1, fs', rfl⟩ : ∃ f1 fs', fs = f1 :: fs' := by
        cases fs with
        | nil => simp at hl
        | cons f1 fs' => exact ⟨f1, fs', rfl⟩
      rw [List.getLastD_cons, List.getLastD_cons]
      cases xs' with
      | nil =>
          have hfs' : fs' = [] := List.length_eq_zero.mp (by simpa using hl)
          subst hfs'
          have hne : x1 - x0 ≠ 0 := ne_of_gt (sub_pos.mpr hc.1)
          show interpGo x1 x0 f0 [x1] [f1] = f1
          simp only [interpGo, if_pos (le_refl x1)]
          field_simp
  

      | cons x2 xs'' =>
          have hgt : x1 < (x2 :: xs'').getLastD x1 :=
            chain_lt_getLastD (x2 :: xs'') x1 x1 hc.2 (by simp)
          show interpGo ((x2 :: xs'').getLastD x1) x0 f0 (x1 :: x2 :: xs'') (f1 :: fs') = _
          simp only [interpGo]
          rw [if_neg (not_le.mpr hgt)]
          exact ih fs' x1 f1 hc.2 (by simpa using hl)

theorem np_interp_last (ts fs : List ℚ) (hc : List.Chain' (· < ·) ts) (hne : ts ≠ [])
    (hl : fs.length = ts.length) :
    np_interp (ts.getLastD 0) ts fs = fs.getLastD 0 := by
  cases ts with
  | nil => exact absurd rfl hne
  | cons t0 ts0 =>
      obtain ⟨f0, fs0, rfl⟩ : ∃ f0 fs0, fs = f0 :: fs0 := by
        cases fs with
        | nil => simp at hl
        | cons f0 fs0 => exact ⟨f0, fs0, rfl⟩
      rw [List.getLastD_cons, List.getLastD_cons]
      cases ts0 with
      | nil =>
          have hfs0 : fs0 = [] := List.length_eq_zero.mp (by simpa using hl)
          subst hfs0
          simp [np_interp]
      | cons t1 ts1 =>
          have hgt : t0 < (t1 :: ts1).getLastD t0 :=
            chain_lt_getLastD (t1 :: ts1) t0 t0 hc (by simp)
          simp only [np_interp]
          rw [if_neg (not_le.mpr hgt)]
          exact interpGo_last (t1 :: ts1) fs0 t0 f0 hc (by simpa using hl)

theorem interp_map_endpoints (t0 : ℚ) (ts0 : List ℚ) (fs : List ℚ) (N : ℕ)
    (hc : List.Chain' (· < ·) (t0 :: ts0)) (hl : fs.length = (t0 :: ts0).length)
    (hN : 2 ≤ N) :
    ((np_linspace t0 ((t0 :: ts0).getLastD 0) N).map
        (fun xq => np_interp xq (t0 :: ts0) fs)).head? = fs.head?
    ∧ ((np_linspace t0 ((t0 :: ts0).getLastD 0) N).map
        (fun xq => np_interp xq (t0 :: ts0) fs)).getLast? = fs.getLast? := by
  obtain ⟨f0, fs0, rfl⟩ : ∃ f0 fs0, fs = f0 :: fs0 := by
    cases fs with
    | nil => simp at hl
    | cons f0 fs0 => exact ⟨f0, fs0, rfl⟩
  constructor
  · rw [List.head?_map, np_linspace_head t0 _ N (by omega)]
    simp only [Option.map_some']
    rw [np_interp_head]
    rfl
  · rw [List.getLast?_map, np_linspace_getLast t0 _ N hN]
    simp only [Option.map_some']
    rw [np_interp_last (t0 :: ts0) (f0 :: fs0) hc (by simp) hl,
      getLast?_of_ne_nil (f0 :: fs0) (by simp)]

/-- C8: for every successful solver result whose series are all present,
non-empty (with a strictly increasing time grid) and of matching lengths,
and every point count `N ≥ 2`, `get_time_history` succeeds and each
resampled series (velocity, displacement, forces, mass) reproduces the
original first and last samples; the source result is returned unchanged by
the call — in particular its stored crossing time and peak-speed value/time
are identical before and after. -/
theorem resampling_preserves_endpoints (sr : SolverResult) (N : ℕ)
    (ts vs ss cs drs ns accs ms : List ℚ)
    (hsucc : sr.success = true)
    (ht : sr.t = some ts) (hv : sr.v = some vs) (hs : sr.s = some ss)
    (hcs : sr.canister_force = some cs) (hdrs : sr.drag_force = some drs)
    (hns : sr.net_force = some ns) (haccs : sr.acceleration = some accs)
    (hms : sr.mass_values = some ms)
    (htne : ts ≠ [])
    (hchain : List.Chain' (· < ·) ts)
    (hlv : vs.length = ts.length) (hls : ss.length = ts.length)
    (hlc : cs.length = ts.length) (hld : drs.length = ts.length)
    (hln : ns.length = ts.length) (hla : accs.length = ts.length)
    (hlm : ms.length = ts.length)
    (hN : 2 ≤ N) :
    ∃ h : TimeHistory,
      get_time_history sr N = Except.ok (some h)
      ∧ h.v.head? = vs.head? ∧ h.v.getLast? = vs.getLast?
      ∧ h.s.head? = ss.head? ∧ h.s.getLast? = ss.getLast?
      ∧ h.canister_force.head? = cs.head? ∧ h.canister_force.getLast? = cs.getLast?
      ∧ h.drag_force.head? = drs.head? ∧ h.drag_force.getLast? = drs.getLast?
      ∧ h.net_force.head? = ns.head? ∧ h.net_force.getLast? = ns.getLast?
      ∧ h.acceleration.head? = accs.head? ∧ h.acceleration.getLast? = accs.getLast?
      ∧ h.mass.head? = ms.head? ∧ h.mass.getLast? = ms.getLast?
      ∧ (get_time_history_full sr N).1 = sr
      ∧ (get_time_history_full sr N).1.time_to_20m = sr.time_to_20m
      ∧ (get_time_history_full sr N).1.top_speed = sr.top_speed
      ∧ (get_time_history_full sr N).1.top_speed_time = sr.top_speed_time := by
  obtain ⟨t0, ts0, rfl⟩ := List.exists_cons_of_ne_nil htne
  obtain ⟨succ, msg, t, x, v, s, t20, tsp, tspt, cdav, mvv, cf, dfo, nf, ac, mvs⟩ := sr
  dsimp only at hsucc ht hv hs hcs hdrs hns haccs hms
  subst hsucc ht hv hs hcs hdrs hns haccs hms
  simp only [get_time_history]
  refine ⟨_, rfl, ?_⟩
  have hev := interp_map_endpoints t0 ts0 vs N hchain hlv hN
  have hes := interp_map_endpoints t0 ts0 ss N hchain hls hN
  have hec := interp_map_endpoints t0 ts0 cs N hchain hlc hN
  have hed := interp_map_endpoints t0 ts0 drs N hchain hld hN
  have hen := interp_map_endpoints t0 ts0 ns N hchain hln hN
  have hea := interp_map_endpoints t0 ts0 accs N hchain hla hN
  have hem := interp_map_endpoints t0 ts0 ms N hchain hlm hN
  exact ⟨hev.1, hev.2, hes.1, hes.2, hec.1, hec.2, hed.1, hed.2, hen.1, hen.2,
    hea.1, hea.2, hem.1, hem.2, rfl, rfl, rfl, rfl⟩

/-- Witness for C8 on `example_solver_result` with `N = 2`. -/
theorem resampling_preserves_endpoints_witness :
    List.Chain' (· < ·) ([0, 1] : List ℚ) ∧ (2 : ℕ) ≤ 2 ∧
    ∃ h : TimeHistory, get_time_history example_solver_result 2 = Except.ok (some h)
      ∧ h.v.head? = some 5 ∧ h.v.getLast? = some 7
      ∧ (get_time_history_full example_solver_result 2).1.time_to_20m
          = example_solver_result.time_to_20m := by
  have hch : List.Chain' (· < ·) ([0, 1] : List ℚ) :=
    List.chain'_pair.mpr (by norm_num)
  obtain ⟨h, hok, hv1, hv2, _, _, _, _, _, _, _, _, _, _, _, _, _, ht20, _, _⟩ :=
    resampling_preserves_endpoints example_solver_result 2
      [0, 1] [5, 7] [0, 2] [1, 2] [3, 4] [5, 6] [7, 8] [9, 10]
      rfl rfl rfl rfl rfl rfl rfl rfl rfl (by simp) hch rfl rfl rfl rfl rfl rfl rfl
      (le_refl 2)
  exact ⟨hch, le_refl 2, h, hok, by rw [hv1]; rfl, by rw [hv2]; rfl, ht20⟩
